import Mathlib

/-!
Verification of the mikeio generic stream-transform engine and grid geometry.

Shallow embedding conventions:
* a float cell is `Option ℚ`: `some q` is a finite number, `none` is NaN
  (IEEE NaN propagates through arithmetic and compares unequal to everything,
  which is exactly the behaviour of `Option` with absorbing `none` below);
* on-disk values are raw `ℚ` (the delete sentinel is an ordinary number there);
* numpy float arithmetic is modelled exactly over `ℚ` (the claims under study
  are about which value is produced, not about rounding);
* `np.allclose` on integer index differences is modelled as exact equality
  (for the integer steps appearing in index arrays the tolerance is inactive).
-/

namespace Mikeio

/-- In-memory cell value: `some q` is a finite float, `none` is NaN. -/
abbrev Val := Option ℚ

/-- Model of `d[d == deletevalue] = np.nan` applied to one raw on-disk value. -/
def maskDelete (deletevalue : ℚ) (v : ℚ) : Val :=
  if v = deletevalue then none else some v

/-- Model of `d[d == deletevalue] = np.nan` applied to an already-masked value:
NaN compares unequal to the delete value, so `none` stays `none`. -/
def maskDeleteVal (deletevalue : ℚ) (v : Val) : Val :=
  match v with
  | none => none
  | some q => if q = deletevalue then none else some q

/-- Float addition with NaN propagation. -/
def addVal : Val → Val → Val
  | some a, some b => some (a + b)
  | _, _ => none

/-- Float subtraction with NaN propagation. -/
def subVal : Val → Val → Val
  | some a, some b => some (a - b)
  | _, _ => none

/-- A generic dfs file as seen by `generic.py`: item/step/element counts, the
file delete value and the raw on-disk data, `data timestep item element`. -/
structure DfsData where
  nItems : ℕ
  nSteps : ℕ
  nElem : ℕ
  deleteValue : ℚ
  data : ℕ → ℕ → ℕ → ℚ

/-- Model of `generic.sum` (generic.py lines 160-204).  The output file gets,
per time step, item and element, the value written by the loop body.  Note the
source masks `d_a` twice (line 193 repeats the `d_a` masking instead of
masking `d_b`), so the raw data of file `b` enters the addition unmasked. -/
def sumTransform (a b : DfsData) : List (List (List Val)) :=
  let deletevalue := a.deleteValue
  (List.range a.nSteps).map fun timestep =>
    (List.range a.nItems).map fun item =>
      (List.range a.nElem).map fun e =>
        let d_a := maskDelete deletevalue (a.data timestep item e)
        let d_b := some (b.data timestep item e)
        let d_a := maskDeleteVal deletevalue d_a
        addVal d_a d_b

/-- Model of `generic.diff` (generic.py lines 207-252): here both inputs have
their delete values masked to NaN before subtracting. -/
def diffTransform (a b : DfsData) : List (List (List Val)) :=
  let deletevalue := a.deleteValue
  (List.range a.nSteps).map fun timestep =>
    (List.range a.nItems).map fun item =>
      (List.range a.nElem).map fun e =>
        let d_a := maskDelete deletevalue (a.data timestep item e)
        let d_b := maskDelete deletevalue (b.data timestep item e)
        subVal d_a d_b

/-- One-element one-step file holding the real value 3 (delete value -99). -/
def fileA3 : DfsData :=
  { nItems := 1, nSteps := 1, nElem := 1, deleteValue := -99,
    data := fun _ _ _ => 3 }

/-- One-element one-step file holding the delete sentinel -99 itself. -/
def fileBDel : DfsData :=
  { nItems := 1, nSteps := 1, nElem := 1, deleteValue := -99,
    data := fun _ _ _ => -99 }

/-- Claim C1: the claim states that both `sum` and `diff` map delete values of
either input to NaN before combining, so an output value is never an
arithmetic combination of a real value with the raw sentinel.  The code
violates this for `sum`: line 193 of generic.py masks `d_a` a second time
instead of masking `d_b`, so `sum` of a real 3 with the sentinel -99 writes
3 + (-99) = -96, while `diff` on the same inputs correctly writes NaN. -/
theorem sum_combines_raw_delete_sentinel :
    sumTransform fileA3 fileBDel = [[[some (-96)]]] ∧
    diffTransform fileA3 fileBDel = [[[none]]] ∧
    (some (-96 : ℚ) : Val) ≠ none := by
  refine ⟨?_, ?_, by simp⟩ <;>
    norm_num [sumTransform, diffTransform, fileA3, fileBDel, maskDelete,
      maskDeleteVal, addVal, subVal, List.range_succ]

/-- Accumulation step of `avg_time` for one element at one later time step
(generic.py lines 508-516): where the step value differs from the delete
value it is added to the (float64) accumulator and the step counter is
incremented; NaN in the accumulator is absorbing. -/
def avgAccum (deletevalue : ℚ) (st : Val × ℕ) (d : ℚ) : Val × ℕ :=
  if d ≠ deletevalue then (Option.map (· + d) st.1, st.2 + 1) else st

/-- Initial accumulator of `avg_time` built from time step 0 (generic.py
lines 497-506): delete values start the accumulator as NaN with count 0. -/
def avgStep0 (deletevalue : ℚ) (v0 : ℚ) : Val × ℕ :=
  if v0 = deletevalue then (none, 0) else (some v0, 1)

/-- Final per-element value of `avg_time` (generic.py lines 518-528):
`skipna=True` requires the count to equal the number of steps, else the
count to be positive; qualifying elements get accumulator/count (NaN if the
accumulator is NaN), the rest get the delete value. -/
def avgCell (deletevalue : ℚ) (skipna : Bool) (nSteps : ℕ) (v0 : ℚ)
    (rest : List ℚ) : Val :=
  let st := rest.foldl (avgAccum deletevalue) (avgStep0 deletevalue v0)
  if skipna then
    if st.2 = nSteps then Option.map (fun s => s / (st.2 : ℚ)) st.1
    else some deletevalue
  else
    if 0 < st.2 then Option.map (fun s => s / (st.2 : ℚ)) st.1
    else some deletevalue

/-- Model of `generic.avg_time` (generic.py lines 471-530): one output time
step per item, holding per element the temporal aggregate of all steps. -/
def avg_time (f : DfsData) (skipna : Bool) : List (List Val) :=
  (List.range f.nItems).map fun item =>
    (List.range f.nElem).map fun e =>
      avgCell f.deleteValue skipna f.nSteps (f.data 0 item e)
        ((List.range (f.nSteps - 1)).map fun t => f.data (t + 1) item e)

/-- Output cell accessor: item `i`, element `e` of a one-step-per-item
output; `none` when out of range. -/
def outAt (o : List (List Val)) (i e : ℕ) : Val :=
  (o.getD i []).getD e none

/-- Two-step one-element file: the delete value -99 at step 0, 5 at step 1. -/
def fileDelThen5 : DfsData :=
  { nItems := 1, nSteps := 2, nElem := 1, deleteValue := -99,
    data := fun t _ _ => if t = 0 then -99 else 5 }

/-- Values of one element across all time steps that differ from the delete
value (the steps `avg_time` counts as valid). -/
def validVals (f : DfsData) (item e : ℕ) : List ℚ :=
  ((List.range f.nSteps).map fun t => f.data t item e).filter
    (· ≠ f.deleteValue)

theorem getD_map_range {α : Type} (f : ℕ → α) {n i : ℕ} (h : i < n) (d : α) :
    ((List.range n).map f).getD i d = f i := by
  rw [List.getD_eq_getElem _ _ (by simpa using h)]
  simp

theorem avgAccum_foldl_some (del : ℚ) (rest : List ℚ) (a : ℚ) (c : ℕ) :
    rest.foldl (avgAccum del) (some a, c) =
      (some (a + (rest.filter (· ≠ del)).sum),
        c + (rest.filter (· ≠ del)).length) := by
  induction rest generalizing a c with
  | nil => simp
  | cons v tl ih =>
    by_cases hv : v = del
    · simp [avgAccum, hv, ih]
    · rw [List.filter_cons_of_pos (by simpa using hv)]
      have h1 : avgAccum del (some a, c) v = (some (a + v), c + 1) := by
        simp [avgAccum, hv]
      rw [List.foldl_cons, h1, ih, Prod.mk.injEq]
      refine ⟨?_, ?_⟩
      · simp only [Option.some.injEq, List.sum_cons]; ring
      · simp only [List.length_cons]; omega

theorem avgAccum_foldl_none (del : ℚ) (rest : List ℚ) (c : ℕ) :
    rest.foldl (avgAccum del) (none, c) =
      (none, c + (rest.filter (· ≠ del)).length) := by
  induction rest generalizing c with
  | nil => simp
  | cons v tl ih =>
    by_cases hv : v = del
    · simp [avgAccum, hv, ih]
    · rw [List.filter_cons_of_pos (by simpa using hv)]
      have h1 : avgAccum del (none, c) v = (none, c + 1) := by
        simp [avgAccum, hv]
      rw [List.foldl_cons, h1, ih, Prod.mk.injEq]
      refine ⟨rfl, ?_⟩
      simp only [List.length_cons]
      omega

theorem avg_time_outAt (f : DfsData) {item e : ℕ}
    (hi : item < f.nItems) (he : e < f.nElem) (skipna : Bool) :
    outAt (avg_time f skipna) item e =
      avgCell f.deleteValue skipna f.nSteps (f.data 0 item e)
        ((List.range (f.nSteps - 1)).map fun t => f.data (t + 1) item e) := by
  unfold outAt avg_time
  rw [getD_map_range _ hi, getD_map_range _ he]

theorem range_map_split (g : ℕ → ℚ) (m : ℕ) :
    (List.range (m + 1)).map g = g 0 :: ((List.range m).map fun t => g (t + 1)) := by
  rw [List.range_succ_eq_map]
  simp [Function.comp_def]

/-- Claim C3 counterexample: on a 2-step file whose single element holds the
delete value at step 0 and the real value 5 at step 1, `avg_time` with
`skipna=False` writes NaN, not the mean over the valid steps (5) that the
claim promises, and not the delete value either (one valid step exists). -/
theorem avg_time_skipna_false_writes_nan :
    avg_time fileDelThen5 false = [[none]] ∧ (none : Val) ≠ some 5 ∧
      (none : Val) ≠ some (-99 : ℚ) := by
  refine ⟨?_, by simp, by simp⟩
  norm_num [avg_time, fileDelThen5, avgCell, avgStep0, avgAccum,
    List.range_succ]

/-- Claim C3 (amended): `avg_time` writes one output step per item holding a
per-element temporal aggregate (modelled in exact arithmetic; the source
accumulates in float64).  With `skipna=True` an element receives the mean of
all steps exactly when every step holds a non-delete value, else the delete
value.  With `skipna=False` an element receives the mean of the valid steps
when step 0 is valid; when step 0 holds the delete value but a later step is
valid the accumulator is NaN from the start and NaN is written (not the
valid-step mean the original claim states); the delete value is written
exactly when no step is valid. -/
theorem avg_time_cases (f : DfsData) (item e : ℕ)
    (hn : 1 ≤ f.nSteps) (hi : item < f.nItems) (he : e < f.nElem) :
    ((∀ t < f.nSteps, f.data t item e ≠ f.deleteValue) →
        outAt (avg_time f true) item e =
          some ((((List.range f.nSteps).map fun t => f.data t item e).sum) /
            (f.nSteps : ℚ))) ∧
    ((∃ t < f.nSteps, f.data t item e = f.deleteValue) →
        outAt (avg_time f true) item e = some f.deleteValue) ∧
    (f.data 0 item e ≠ f.deleteValue →
        outAt (avg_time f false) item e =
          some ((validVals f item e).sum / ((validVals f item e).length : ℚ))) ∧
    (f.data 0 item e = f.deleteValue →
        (∃ t, 1 ≤ t ∧ t < f.nSteps ∧ f.data t item e ≠ f.deleteValue) →
        outAt (avg_time f false) item e = none) ∧
    ((∀ t < f.nSteps, f.data t item e = f.deleteValue) →
        outAt (avg_time f false) item e = some f.deleteValue) := by
  obtain ⟨m, hm⟩ : ∃ m, f.nSteps = m + 1 := ⟨f.nSteps - 1, by omega⟩
  have hsteps1 : f.nSteps - 1 = m := by omega
  have houtAt : ∀ skipna, outAt (avg_time f skipna) item e =
      avgCell f.deleteValue skipna f.nSteps (f.data 0 item e)
        ((List.range m).map fun t => f.data (t + 1) item e) := by
    intro s
    rw [avg_time_outAt f hi he s, hsteps1]
  have hsplit : (List.range f.nSteps).map (fun t => f.data t item e) =
      f.data 0 item e :: ((List.range m).map fun t => f.data (t + 1) item e) := by
    rw [hm]
    exact range_map_split (fun t => f.data t item e) m
  have hrestlen : ((List.range m).map fun t => f.data (t + 1) item e).length = m := by
    simp
  have hmemrest : ∀ t, 1 ≤ t → t < f.nSteps →
      f.data t item e ∈ (List.range m).map fun s => f.data (s + 1) item e := by
    intro t h1 h2
    refine List.mem_map.mpr ⟨t - 1, List.mem_range.mpr (by omega), ?_⟩
    have ht : t - 1 + 1 = t := by omega
    rw [ht]
  have hrestmem : ∀ a ∈ (List.range m).map fun s => f.data (s + 1) item e,
      ∃ t, 1 ≤ t ∧ t < f.nSteps ∧ a = f.data t item e := by
    intro a ha
    obtain ⟨t, ht, rfl⟩ := List.mem_map.mp ha
    rw [List.mem_range] at ht
    exact ⟨t + 1, by omega, by omega, rfl⟩
  refine ⟨?_, ?_, ?_, ?_, ?_⟩
  · -- skipna=True, all steps valid
    intro hall
    have h0 : f.data 0 item e ≠ f.deleteValue := hall 0 (by omega)
    have hfr : ((List.range m).map fun s => f.data (s + 1) item e).filter
        (fun x => !decide (x = f.deleteValue)) =
        (List.range m).map fun s => f.data (s + 1) item e := by
      rw [List.filter_eq_self]
      intro a ha
      obtain ⟨t, ht1, ht2, rfl⟩ := hrestmem a ha
      simpa using hall t ht2
    have hc : 1 + m = f.nSteps := by omega
    have hcq : (1 : ℚ) + (m : ℚ) = (f.nSteps : ℚ) := by exact_mod_cast hc
    rw [houtAt, hsplit]
    simp [avgCell, avgStep0, h0, avgAccum_foldl_some, hfr, hc, hcq]
  · -- skipna=True, some step has the delete value
    rintro ⟨t, ht, htdel⟩
    rw [houtAt]
    have hle := List.length_filter_le (fun x => !decide (x = f.deleteValue))
      ((List.range m).map fun s => f.data (s + 1) item e)
    by_cases h0 : f.data 0 item e = f.deleteValue
    · have hne : ¬ ((((List.range m).map fun s => f.data (s + 1) item e).filter
          (fun x => !decide (x = f.deleteValue))).length = f.nSteps) := by
        rw [hrestlen] at hle
        omega
      simp [avgCell, avgStep0, h0, avgAccum_foldl_none, hne]
    · have ht1 : 1 ≤ t := by
        by_contra hc
        push_neg at hc
        interval_cases t
        exact h0 htdel
      have hlt : (((List.range m).map fun s => f.data (s + 1) item e).filter
          (fun x => !decide (x = f.deleteValue))).length <
          ((List.range m).map fun s => f.data (s + 1) item e).length :=
        List.length_filter_lt_length_iff_exists.mpr
          ⟨f.data t item e, hmemrest t ht1 ht, by simp [htdel]⟩
      have hne : ¬ (1 + (((List.range m).map fun s => f.data (s + 1) item e).filter
          (fun x => !decide (x = f.deleteValue))).length = f.nSteps) := by
        rw [hrestlen] at hlt
        omega
      simp [avgCell, avgStep0, h0, avgAccum_foldl_some, hne]
  · -- skipna=False, step 0 valid
    intro h0
    rw [houtAt, validVals, hsplit, List.filter_cons_of_pos (by simpa using h0)]
    simp [avgCell, avgStep0, h0, avgAccum_foldl_some, add_comm]
  · -- skipna=False, step 0 deleted but a later step valid: NaN written
    intro h0
    rintro ⟨t, ht1, htn, htv⟩
    rw [houtAt]
    simp [avgCell, avgStep0, h0, avgAccum_foldl_none]
    exact ⟨t - 1, by omega, by rw [show t - 1 + 1 = t from by omega]; exact htv⟩
  · -- skipna=False, no valid step at all: delete value
    intro hall
    have h0 : f.data 0 item e = f.deleteValue := hall 0 (by omega)
    rw [houtAt]
    simp [avgCell, avgStep0, h0, avgAccum_foldl_none]
    intro a ha
    exact hall (a + 1) (by omega)

/-- The 3-step scenario file of the spec: one item, two elements, element 0
has a delete value at (0-based) step 1, element 1 holds 1, 2, 3. -/
def fileScenario3 : DfsData :=
  { nItems := 1, nSteps := 3, nElem := 2, deleteValue := -99,
    data := fun t _ e => if e = 0 ∧ t = 1 then -99 else (t + 1 : ℚ) }

/-- Witness for `avg_time_cases`: on the 3-step scenario file, the element
with a delete value at step 1 receives the delete value under `skipna=True`
and the fully valid element receives its true mean 2. -/
theorem avg_time_cases_witness :
    outAt (avg_time fileScenario3 true) 0 0 = some (-99) ∧
    outAt (avg_time fileScenario3 true) 0 1 = some 2 := by
  constructor
  · exact (avg_time_cases fileScenario3 0 0 (by norm_num [fileScenario3])
      (by norm_num [fileScenario3]) (by norm_num [fileScenario3])).2.1
      ⟨1, by norm_num [fileScenario3], by norm_num [fileScenario3]⟩
  · have h := (avg_time_cases fileScenario3 0 1 (by norm_num [fileScenario3])
      (by norm_num [fileScenario3]) (by norm_num [fileScenario3])).1
      (by
        intro t ht
        norm_num [fileScenario3]
        intro hq
        have hnn := Nat.cast_nonneg (α := ℚ) t
        linarith)
    rw [h]
    norm_num [fileScenario3, List.range_succ]

/-- A dfs file with an equidistant calendar time axis as consumed by
`generic.concat`: absolute start time (seconds), time step (seconds), step
count, item count and data (`data timestep item` is one item array). -/
structure DfsT where
  startDateTime : ℚ
  dt : ℚ
  nSteps : ℕ
  nItems : ℕ
  data : ℕ → ℕ → List ℚ

/-- Truncation of an absolute time to whole seconds, modelling
`datetime(nf.year, ..., nf.second)` in concat (generic.py lines 301-303),
which drops the sub-second part of the next file start time. -/
def truncSec (t : ℚ) : ℚ := (⌊t⌋ : ℚ)

/-- One written output step of concat: the step time reached by the loop and
the per-item arrays written by `WriteItemTimeStepNext`. -/
abbrev ConcatStep := ℚ × List (List ℚ)

/-- Inner time-step loop of concat over one input file (generic.py lines
306-321): for each remaining step index, the loop time is advanced; when a
next file exists and the loop time reaches its (truncated) start the loop
breaks; otherwise all `nItems` arrays of the step are written.  Returns the
written steps and the final `current_time`. -/
def concatLoop (f : DfsT) (nextStart : Option ℚ) (nItems : ℕ) :
    List ℕ → ℚ → List ConcatStep × ℚ
  | [], cur => ([], cur)
  | t :: ts, _ =>
    let cur := f.startDateTime + (t : ℚ) * f.dt
    if nextStart.elim false (fun ns => decide (cur ≥ ns)) then
      ([], cur)
    else
      let r := concatLoop f nextStart nItems ts cur
      ((cur, (List.range nItems).map fun item => f.data t item) :: r.1, r.2)

/-- Outer file loop of concat (generic.py lines 283-321): before any step of
a non-first file is copied, a start time more than one (current file) time
step after the last reached time closes and deletes the output and raises;
the model returns `Except.error` for that path, so no output file exists. -/
def concatGo (nItems : ℕ) : List DfsT → ℚ → Bool → Except String (List ConcatStep)
  | [], _, _ => .ok []
  | f :: rest, cur, isFirst =>
    if ¬ isFirst ∧ f.startDateTime > cur + f.dt then
      .error "Gap in time axis detected - not supported"
    else
      let nextStart := rest.head?.map fun g => truncSec g.startDateTime
      let r := concatLoop f nextStart nItems (List.range f.nSteps) f.startDateTime
      match concatGo nItems rest r.2 false with
      | .ok ws => .ok (r.1 ++ ws)
      | .error e => .error e

/-- Model of `generic.concat` (generic.py lines 255-323).  The output clones
file 0 (items and equidistant time axis) and receives the written steps;
`n_items` is taken from the first file.  The initial `current_time` sentinel
`datetime(1,1,1)` is never compared (the gap check is skipped for the first
file), so it is modelled by an arbitrary value 0. -/
def concat : List DfsT → Except String (List ConcatStep)
  | [] => .error "IndexError: list index out of range"
  | f :: rest => concatGo f.nItems (f :: rest) 0 true

/-- Step record written by concat for step `t` of file `f`. -/
def concatRec (f : DfsT) (nItems : ℕ) (t : ℕ) : ConcatStep :=
  (f.startDateTime + (t : ℚ) * f.dt,
    (List.range nItems).map fun item => f.data t item)

theorem concatLoop_none (f : DfsT) (nItems : ℕ) (ts : List ℕ) (cur : ℚ) :
    concatLoop f none nItems ts cur =
      (ts.map (concatRec f nItems),
       ts.foldl (fun (_ : ℚ) (t : ℕ) => f.startDateTime + (t : ℚ) * f.dt) cur) := by
  induction ts generalizing cur with
  | nil => simp [concatLoop]
  | cons t ts ih => simp [concatLoop, concatRec, ih]

theorem concatLoop_some (f : DfsT) (nItems : ℕ) (v : ℚ) (ts : List ℕ) (cur : ℚ)
    (h : ∀ t ∈ ts, f.startDateTime + (t : ℚ) * f.dt < v) :
    concatLoop f (some v) nItems ts cur =
      (ts.map (concatRec f nItems),
       ts.foldl (fun (_ : ℚ) (t : ℕ) => f.startDateTime + (t : ℚ) * f.dt) cur) := by
  induction ts generalizing cur with
  | nil => simp [concatLoop]
  | cons t ts ih =>
    have ht := h t (by simp)
    have hcond : ¬ (f.startDateTime + (t : ℚ) * f.dt ≥ v) := by linarith
    have ih2 := ih (f.startDateTime + (t : ℚ) * f.dt)
      (fun s hs => h s (by simp [hs]))
    simp [concatLoop, concatRec, hcond, ih2]

theorem foldl_time_range (g : ℕ → ℚ) (c : ℚ) (k : ℕ) :
    (List.range (k + 1)).foldl (fun _ t => g t) c = g k := by
  rw [List.range_succ, List.foldl_append]
  simp

/-- Claim C2: for two chronologically sorted input files, a start of the
second file more than one (second file) time step after the last written
step time of the first raises the fatal gap error and the partially written
output is deleted (modelled by the `Except.error` result: no output value
exists); if instead the second file starts exactly one time step after the
first file ends, concat succeeds and the output holds exactly
`len(f1) + len(f2)` steps whose times form one gap-free equidistant axis. -/
theorem concat_gap_or_adjacent (f1 f2 : DfsT)
    (h1 : 1 ≤ f1.nSteps) (hdt1 : 0 < f1.dt) (hdt2 : 0 < f2.dt)
    (hint : truncSec f2.startDateTime = f2.startDateTime) :
    (f2.startDateTime > f1.startDateTime + ((f1.nSteps : ℚ) - 1) * f1.dt + f2.dt →
      concat [f1, f2] = .error "Gap in time axis detected - not supported") ∧
    (f2.dt = f1.dt →
      f2.startDateTime = f1.startDateTime + ((f1.nSteps : ℚ) - 1) * f1.dt + f1.dt →
      ∃ out, concat [f1, f2] = .ok out ∧
        out.length = f1.nSteps + f2.nSteps ∧
        out.map Prod.fst = (List.range (f1.nSteps + f2.nSteps)).map
          fun t : ℕ => f1.startDateTime + (t : ℚ) * f1.dt) := by
  obtain ⟨m, hm⟩ : ∃ m, f1.nSteps = m + 1 := ⟨f1.nSteps - 1, by omega⟩
  have hmq : (m : ℚ) = (f1.nSteps : ℚ) - 1 := by
    rw [hm]
    push_cast
    ring
  have htle : ∀ t ∈ List.range f1.nSteps,
      f1.startDateTime + (t : ℚ) * f1.dt ≤
        f1.startDateTime + ((f1.nSteps : ℚ) - 1) * f1.dt := by
    intro t ht
    rw [List.mem_range] at ht
    have htn : t ≤ f1.nSteps - 1 := by omega
    have htq : (t : ℚ) ≤ (f1.nSteps : ℚ) - 1 := by
      have := Nat.cast_le (α := ℚ) |>.mpr htn
      rw [Nat.cast_sub h1] at this
      simpa using this
    nlinarith
  have hfin : (List.range f1.nSteps).foldl
      (fun (_ : ℚ) (t : ℕ) => f1.startDateTime + (t : ℚ) * f1.dt) f1.startDateTime =
      f1.startDateTime + ((f1.nSteps : ℚ) - 1) * f1.dt := by
    rw [hm, foldl_time_range]
    push_cast
    ring
  constructor
  · -- gap: fatal error, no output
    intro hgap
    have hend : ∀ t ∈ List.range f1.nSteps,
        f1.startDateTime + (t : ℚ) * f1.dt < truncSec f2.startDateTime := by
      intro t ht
      rw [hint]
      have := htle t ht
      linarith
    have hloop := concatLoop_some f1 f1.nItems (truncSec f2.startDateTime)
      (List.range f1.nSteps) f1.startDateTime hend
    simp only [concat, concatGo, List.head?_cons, Option.map_some']
    rw [hloop]
    simp only [hfin]
    simp [hgap]
  · -- adjacency: success, gap-free output of n1 + n2 steps
    intro hdteq hadj
    have hend : ∀ t ∈ List.range f1.nSteps,
        f1.startDateTime + (t : ℚ) * f1.dt < truncSec f2.startDateTime := by
      intro t ht
      rw [hint, hadj]
      have := htle t ht
      linarith
    have hloop := concatLoop_some f1 f1.nItems (truncSec f2.startDateTime)
      (List.range f1.nSteps) f1.startDateTime hend
    have hloop2 := concatLoop_none f2 f1.nItems (List.range f2.nSteps)
      f2.startDateTime
    have hnogap : ¬ (f2.startDateTime > f1.startDateTime +
        ((f1.nSteps : ℚ) - 1) * f1.dt + f2.dt) := by
      rw [hadj, hdteq]
      exact lt_irrefl _
    refine ⟨(List.range f1.nSteps).map (concatRec f1 f1.nItems) ++
      (List.range f2.nSteps).map (concatRec f2 f1.nItems), ?_, ?_, ?_⟩
    · simp only [concat, concatGo, List.head?_cons, List.head?_nil,
        Option.map_some', Option.map_none']
      rw [hloop]
      simp only [hfin]
      rw [hloop2]
      simp [hnogap]
    · simp
    · rw [List.map_append, List.map_map, List.map_map, List.range_add,
        List.map_append, List.map_map]
      congr 1
      all_goals
        refine List.map_congr_left ?_
        intro s hs
        simp only [Function.comp, concatRec]
        try rw [hadj, hdteq]
        push_cast
        ring

/-- Input file for the concat witness: 2 steps at times 0 and 1 (dt = 1). -/
def wFileA : DfsT :=
  { startDateTime := 0, dt := 1, nSteps := 2, nItems := 1,
    data := fun _ _ => [1] }

/-- Second file starting at time 10: a multi-step gap after wFileA. -/
def wFileGap : DfsT :=
  { startDateTime := 10, dt := 1, nSteps := 1, nItems := 1,
    data := fun _ _ => [2] }

/-- Second file starting at time 2: exactly one time step after wFileA ends. -/
def wFileAdj : DfsT :=
  { startDateTime := 2, dt := 1, nSteps := 2, nItems := 1,
    data := fun _ _ => [2] }

/-- Witness for `concat_gap_or_adjacent` at concrete inputs: the gapped pair
errors, the adjacent pair yields 4 equidistant output steps. -/
theorem concat_gap_or_adjacent_witness :
    concat [wFileA, wFileGap] = .error "Gap in time axis detected - not supported" ∧
    (∃ out, concat [wFileA, wFileAdj] = .ok out ∧
      out.length = wFileA.nSteps + wFileAdj.nSteps ∧
      out.map Prod.fst = (List.range (wFileA.nSteps + wFileAdj.nSteps)).map
        fun t : ℕ => wFileA.startDateTime + (t : ℚ) * wFileA.dt) := by
  constructor
  · exact (concat_gap_or_adjacent wFileA wFileGap (by norm_num [wFileA])
      (by norm_num [wFileA]) (by norm_num [wFileGap])
      (by norm_num [truncSec, wFileGap])).1
      (by norm_num [wFileA, wFileGap])
  · exact (concat_gap_or_adjacent wFileA wFileAdj (by norm_num [wFileA])
      (by norm_num [wFileA]) (by norm_num [wFileAdj])
      (by norm_num [truncSec, wFileAdj])).2
      (by norm_num [wFileA, wFileAdj]) (by norm_num [wFileA, wFileAdj])

/-- File time axis header as read by `_parse_start_end` (generic.py lines
392-407): axis type 3 is equidistant calendar (TimeStep), type 4 is
non-equidistant calendar (TimeSpan); times are modelled in seconds. -/
structure FileTimeAxis where
  axisType : ℕ
  startDateTime : ℚ
  startOffset : ℚ
  dt : ℚ
  timeSpan : ℚ
  nSteps : ℕ

/-- A start/end argument of `extract`: a step index (int), elapsed seconds
(float), or an absolute timestamp (str/datetime, modelled as absolute
seconds; `pd.to_datetime` turns the str into the datetime). -/
inductive TimeBound
  | step (i : ℤ)
  | sec (s : ℚ)
  | date (t : ℚ)

/-- Resolved bounds returned by `_parse_start_end`, plus the warnings
emitted on the way (each `warnings.warn` call appends its message). -/
structure ParseResult where
  fileStartNew : Option ℚ
  startStep : ℤ
  startSec : ℚ
  endStep : ℤ
  endSec : ℚ
  warnings : List String
  deriving Repr, DecidableEq

/-- Python `int()` truncation toward zero on a rational. -/
def pyInt (q : ℚ) : ℤ := if 0 ≤ q then ⌊q⌋ else ⌈q⌉

/-- Model of `generic._parse_start_end` (generic.py lines 392-468).  The
unsupported-axis check is hoisted to the top (in the source it raises while
computing `timespan`, before any bound is inspected); everything else
follows the source order: resolve start, resolve end (negative int ends
count back from the file end), clamp the start from below with warnings,
raise if the end precedes the start, then clamp the end from above with
warnings, and finally derive the new file start. -/
def parse_start_end (ax : FileTimeAxis) (start stop : TimeBound) :
    Except String ParseResult :=
  if ax.axisType = 3 ∨ ax.axisType = 4 then
    let n : ℤ := ax.nSteps
    let file_start_sec := ax.startOffset
    let timespan := if ax.axisType = 3 then ax.dt * ((ax.nSteps : ℚ) - 1)
      else ax.timeSpan
    let file_end_sec := file_start_sec + timespan
    let sp : ℤ × ℚ :=
      match start with
      | .step i => (i, file_start_sec)
      | .sec s => (0, s)
      | .date t => (0, t - ax.startDateTime)
    let ep : ℤ × ℚ :=
      match stop with
      | .step i => (if i < 0 then n + i + 1 else i, file_end_sec)
      | .sec s => (n, s)
      | .date t => (n, t - ax.startDateTime)
    let c1 : ℤ × List String :=
      if sp.1 < 0 then (0, ["start cannot be before start of file"])
      else (sp.1, [])
    let c2 : ℚ × List String :=
      if sp.2 < file_start_sec then
        (file_start_sec, ["start cannot be before start of file"])
      else (sp.2, [])
    if ep.2 < c2.1 ∨ ep.1 < c1.1 then .error "end must be after start"
    else
      let c3 : ℤ × List String :=
        if ep.1 > n then (n, ["end cannot be after end of file"])
        else (ep.1, [])
      let c4 : ℚ × List String :=
        if ep.2 > file_end_sec then
          (file_end_sec, ["end cannot be after end of file"])
        else (ep.2, [])
      if ax.axisType = 3 then
        let start_step :=
          if c2.1 > file_start_sec ∧ c1.1 = 0 then
            pyInt ((c2.1 - file_start_sec) / ax.dt)
          else c1.1
        .ok { fileStartNew := some (ax.startDateTime + (start_step : ℚ) * ax.dt),
              startStep := start_step, startSec := c2.1,
              endStep := c3.1, endSec := c4.1,
              warnings := c1.2 ++ c2.2 ++ c3.2 ++ c4.2 }
      else
        .ok { fileStartNew := if c2.1 > file_start_sec then
                some (ax.startDateTime + c2.1) else none,
              startStep := c1.1, startSec := c2.1,
              endStep := c3.1, endSec := c4.1,
              warnings := c1.2 ++ c2.2 ++ c3.2 ++ c4.2 }
  else .error "TimeAxisType not supported"

/-- Equidistant 2-step axis (times 0 and 1, dt = 1) for the C4
counterexample. -/
def axTwoSteps : FileTimeAxis :=
  { axisType := 3, startDateTime := 100, startOffset := 0, dt := 1,
    timeSpan := 0, nSteps := 2 }

/-- Claim C4 counterexample: a start bound resolving after the file end is
not clamped.  On a 2-step file, `extract(start=5, end=-1)` resolves
start_step=5 past the file end; `_parse_start_end` raises
"end must be after start" (the end-before-start check runs before the upper
clamp), contradicting the claim that out-of-range bounds are clamped with a
warning and do not raise. -/
theorem parse_start_end_late_start_raises :
    parse_start_end axTwoSteps (.step 5) (.step (-1)) =
      .error "end must be after start" := by
  norm_num [parse_start_end, axTwoSteps]

/-- Claim C4 (amended): bounds that resolve before the file start are
clamped up to the file start with a warning, and end bounds that resolve
after the file end are clamped down with a warning, without raising; but a
start bound resolving after the file end is not clamped: it makes the
resolved end precede the resolved start, which raises the fatal
"end must be after start" error (that check runs before the upper clamp). -/
theorem parse_start_end_clamping (ax : FileTimeAxis) (h3 : ax.axisType = 3)
    (hn : 1 ≤ ax.nSteps) (hdt : 0 < ax.dt) :
    (∀ i : ℤ, i < 0 →
      ∃ r, parse_start_end ax (.step i) (.step (-1)) = .ok r ∧
        r.startStep = 0 ∧ "start cannot be before start of file" ∈ r.warnings) ∧
    (∀ s : ℚ, s < ax.startOffset →
      ∃ r, parse_start_end ax (.sec s) (.step (-1)) = .ok r ∧
        r.startSec = ax.startOffset ∧
        "start cannot be before start of file" ∈ r.warnings) ∧
    (∀ e : ℤ, (ax.nSteps : ℤ) < e →
      ∃ r, parse_start_end ax (.step 0) (.step e) = .ok r ∧
        r.endStep = (ax.nSteps : ℤ) ∧
        "end cannot be after end of file" ∈ r.warnings) ∧
    (∀ s : ℚ, ax.startOffset + ax.dt * ((ax.nSteps : ℚ) - 1) < s →
      ∃ r, parse_start_end ax (.step 0) (.sec s) = .ok r ∧
        r.endSec = ax.startOffset + ax.dt * ((ax.nSteps : ℚ) - 1) ∧
        "end cannot be after end of file" ∈ r.warnings) ∧
    (∀ i : ℤ, (ax.nSteps : ℤ) < i →
      parse_start_end ax (.step i) (.step (-1)) =
        .error "end must be after start") := by
  have h1q : (1 : ℚ) ≤ (ax.nSteps : ℚ) := by exact_mod_cast hn
  have hB : ¬ (ax.startOffset + ax.dt * ((ax.nSteps : ℚ) - 1) < ax.startOffset) := by
    nlinarith
  refine ⟨?_, ?_, ?_, ?_, ?_⟩
  · intro i hi
    refine ⟨ParseResult.mk (some ax.startDateTime) 0 ax.startOffset
        (ax.nSteps : ℤ) (ax.startOffset + ax.dt * ((ax.nSteps : ℚ) - 1))
        ["start cannot be before start of file"], ?_, rfl, by simp⟩
    norm_num [parse_start_end, h3, hi, hB,
      show ¬ ((ax.nSteps : ℤ) + -1 + 1 < 0) from by omega]
  · intro s hs
    refine ⟨ParseResult.mk (some ax.startDateTime) 0 ax.startOffset
        (ax.nSteps : ℤ) (ax.startOffset + ax.dt * ((ax.nSteps : ℚ) - 1))
        ["start cannot be before start of file"], ?_, rfl, by simp⟩
    norm_num [parse_start_end, h3, hs, hB,
      show ¬ ((ax.nSteps : ℤ) + -1 + 1 < 0) from by omega]
  · intro e he
    refine ⟨ParseResult.mk (some ax.startDateTime) 0 ax.startOffset
        (ax.nSteps : ℤ) (ax.startOffset + ax.dt * ((ax.nSteps : ℚ) - 1))
        ["end cannot be after end of file"], ?_, rfl, by simp⟩
    norm_num [parse_start_end, h3, he, hB, show ¬ (e < 0) from by omega]
  · intro s hs
    have hfe : ¬ (s < ax.startOffset) := by nlinarith
    refine ⟨ParseResult.mk (some ax.startDateTime) 0 ax.startOffset
        (ax.nSteps : ℤ) (ax.startOffset + ax.dt * ((ax.nSteps : ℚ) - 1))
        ["end cannot be after end of file"], ?_, rfl, by simp⟩
    norm_num [parse_start_end, h3, hs, hB, hfe]
  · intro i hi
    norm_num [parse_start_end, h3, hB, hi, show ¬ (i < 0) from by omega]

/-- Witness for `parse_start_end_clamping` on the 2-step axis: a negative
start step is clamped to 0 with a warning, a start step past the file end
raises. -/
theorem parse_start_end_clamping_witness :
    (∃ r, parse_start_end axTwoSteps (.step (-5)) (.step (-1)) = .ok r ∧
      r.startStep = 0 ∧ "start cannot be before start of file" ∈ r.warnings) ∧
    parse_start_end axTwoSteps (.step 7) (.step (-1)) =
      .error "end must be after start" := by
  constructor
  · exact (parse_start_end_clamping axTwoSteps (by norm_num [axTwoSteps])
      (by norm_num [axTwoSteps]) (by norm_num [axTwoSteps])).1 (-5) (by norm_num)
  · exact (parse_start_end_clamping axTwoSteps (by norm_num [axTwoSteps])
      (by norm_num [axTwoSteps]) (by norm_num [axTwoSteps])).2.2.2.2 7
      (by norm_num [axTwoSteps])

/-- A dfs file as consumed by `generic.extract`: header time axis, item
count, per-step item arrays, and the per-step stored time returned by
`ReadItemTimeStep` (for an equidistant type-3 file this is
`startOffset + t * dt`). -/
structure ExtractFile where
  ax : FileTimeAxis
  nItems : ℕ
  stepTime : ℕ → ℚ
  data : ℕ → ℕ → List ℚ

/-- One `WriteItemTimeStep` call made by extract: 0-based output item
position (the source passes `item_out + 1`), output step index
`timestep_out`, shifted time, and the array. -/
structure WriteRec where
  itemOut : ℕ
  stepOut : ℤ
  time : ℚ
  data : List ℚ
  deriving Repr, DecidableEq

/-- Output file produced by extract: the (possibly shifted) start time set
by `_clone` and the sequence of time-step writes. -/
structure ExtractOut where
  startDateTime : ℚ
  writes : List WriteRec
  deriving Repr, DecidableEq

/-- Inner item loop of extract for one time step (generic.py lines 369-386):
each enumerated selected item is read; a step time past `end_sec` returns
from the whole function (`none` continuation); a step time at or past
`start_sec` bumps `timestep_out` when the item equals the first selected
item and writes the array with the shifted time. -/
def extractItems (f : ExtractFile) (first : ℕ) (start_sec end_sec shift : ℚ)
    (t : ℕ) : List (ℕ × ℕ) → ℤ → List WriteRec × Option ℤ
  | [], tOut => ([], some tOut)
  | (item_out, item) :: rest, tOut =>
    let time_sec := f.stepTime t
    if end_sec < time_sec then ([], none)
    else if start_sec ≤ time_sec then
      let tOut := if item = first then tOut + 1 else tOut
      let w : WriteRec := ⟨item_out, tOut, time_sec - shift, f.data t item⟩
      let r := extractItems f first start_sec end_sec shift t rest tOut
      (w :: r.1, r.2)
    else
      extractItems f first start_sec end_sec shift t rest tOut

/-- Outer time-step loop of extract (generic.py lines 367-386): steps from
`start_step` to `end_step - 1`; an early return from the item loop keeps the
writes made so far and stops. -/
def extractSteps (f : ExtractFile) (first : ℕ) (start_sec end_sec shift : ℚ)
    (sel : List ℕ) : List ℕ → ℤ → List WriteRec
  | [], _ => []
  | t :: ts, tOut =>
    let r := extractItems f first start_sec end_sec shift t sel.enum tOut
    match r.2 with
    | none => r.1
    | some tOut2 => r.1 ++ extractSteps f first start_sec end_sec shift sel ts tOut2

/-- Model of `generic.extract` (generic.py lines 326-389) for the resolved
item selection `items`.  The bounds are resolved by `_parse_start_end`; the
output start time comes from `_clone(..., start_time=file_start_new)`
(unchanged when `file_start_new` is None); `file_start_shift` re-bases the
written times; the loop runs over `range(start_step, end_step)` (after
resolution `start_step ≥ 0`) with `timestep_out` starting at -1. -/
def extract (f : ExtractFile) (start stop : TimeBound) (items : List ℕ) :
    Except String ExtractOut :=
  match parse_start_end f.ax start stop with
  | .error e => .error e
  | .ok pr =>
    let file_start_shift : ℚ :=
      match pr.fileStartNew with
      | some s => s - f.ax.startDateTime
      | none => 0
    let outStart : ℚ :=
      match pr.fileStartNew with
      | some s => s
      | none => f.ax.startDateTime
    let steps := (List.range (pr.endStep - pr.startStep).toNat).map
      fun k => k + pr.startStep.toNat
    .ok { startDateTime := outStart,
          writes := extractSteps f (items.headD 0) pr.startSec pr.endSec
            file_start_shift items steps (-1) }

theorem zip_self {α : Type} (l : List α) : l.zip l = l.map fun a => (a, a) := by
  induction l with
  | nil => simp
  | cons a l ih => simp [ih]

theorem enum_range (k : ℕ) :
    (List.range k).enum = (List.range k).map fun i => (i, i) := by
  rw [List.enum_eq_zip_range, List.length_range]
  exact zip_self _

theorem extractItems_no_first (f : ExtractFile) (first : ℕ)
    (start_sec end_sec shift : ℚ) (t : ℕ) (l : List (ℕ × ℕ)) (tOut : ℤ)
    (hin : start_sec ≤ f.stepTime t ∧ f.stepTime t ≤ end_sec)
    (hnf : ∀ p ∈ l, p.2 ≠ first) :
    extractItems f first start_sec end_sec shift t l tOut =
      (l.map fun p => ⟨p.1, tOut, f.stepTime t - shift, f.data t p.2⟩,
        some tOut) := by
  induction l with
  | nil => simp [extractItems]
  | cons p l ih =>
    obtain ⟨io, it⟩ := p
    have h1 : ¬ (end_sec < f.stepTime t) := not_lt.mpr hin.2
    have h2 : it ≠ first := hnf (io, it) (by simp)
    simp [extractItems, h1, hin.1, h2, ih fun q hq => hnf q (by simp [hq])]

theorem extractItems_cons_first (f : ExtractFile) (first : ℕ)
    (start_sec end_sec shift : ℚ) (t : ℕ) (io : ℕ) (l : List (ℕ × ℕ)) (tOut : ℤ)
    (hin : start_sec ≤ f.stepTime t ∧ f.stepTime t ≤ end_sec) :
    extractItems f first start_sec end_sec shift t ((io, first) :: l) tOut =
      ((⟨io, tOut + 1, f.stepTime t - shift, f.data t first⟩ : WriteRec) ::
        (extractItems f first start_sec end_sec shift t l (tOut + 1)).1,
       (extractItems f first start_sec end_sec shift t l (tOut + 1)).2) := by
  have h1 : ¬ (end_sec < f.stepTime t) := not_lt.mpr hin.2
  simp [extractItems, h1, hin.1]

theorem extractItems_range (f : ExtractFile) (start_sec end_sec shift : ℚ)
    (t : ℕ) (k : ℕ) (hk : 1 ≤ k) (tOut : ℤ)
    (hin : start_sec ≤ f.stepTime t ∧ f.stepTime t ≤ end_sec) :
    extractItems f 0 start_sec end_sec shift t (List.range k).enum tOut =
      ((List.range k).map fun i =>
        ⟨i, tOut + 1, f.stepTime t - shift, f.data t i⟩, some (tOut + 1)) := by
  obtain ⟨m, rfl⟩ : ∃ m, k = m + 1 := ⟨k - 1, by omega⟩
  rw [enum_range, List.range_succ_eq_map, List.map_cons, List.map_map]
  rw [extractItems_cons_first f 0 start_sec end_sec shift t 0 _ tOut hin]
  rw [extractItems_no_first f 0 start_sec end_sec shift t _ (tOut + 1) hin ?_]
  · simp [List.range_succ_eq_map, List.map_map, Function.comp]
  · intro p hp
    simp only [List.mem_map, Function.comp] at hp
    obtain ⟨i, hi, rfl⟩ := hp
    simp

/-- Closed form of the writes produced by the extract step loop when every
step qualifies: one block of `k` item writes per step, with the output step
counter advancing by one per step. -/
def expectedWrites (f : ExtractFile) (k : ℕ) (shift : ℚ) :
    List ℕ → ℤ → List WriteRec
  | [], _ => []
  | t :: ts, tOut =>
    ((List.range k).map fun i =>
      ⟨i, tOut + 1, f.stepTime t - shift, f.data t i⟩)
      ++ expectedWrites f k shift ts (tOut + 1)

theorem extractSteps_all (f : ExtractFile) (start_sec end_sec shift : ℚ)
    (k : ℕ) (hk : 1 ≤ k) (ts : List ℕ) (tOut : ℤ)
    (hb : ∀ t ∈ ts, start_sec ≤ f.stepTime t ∧ f.stepTime t ≤ end_sec) :
    extractSteps f 0 start_sec end_sec shift (List.range k) ts tOut =
      expectedWrites f k shift ts tOut := by
  induction ts generalizing tOut with
  | nil => simp [extractSteps, expectedWrites]
  | cons t ts ih =>
    rw [extractSteps, extractItems_range f start_sec end_sec shift t k hk tOut
      (hb t (by simp))]
    simp only [expectedWrites]
    rw [ih (tOut + 1) fun s hs => hb s (by simp [hs])]

theorem expectedWrites_range' (f : ExtractFile) (k : ℕ) (shift : ℚ)
    (n s : ℕ) :
    expectedWrites f k shift (List.range' s n) ((s : ℤ) - 1) =
      (List.range' s n).flatMap fun t =>
        (List.range k).map fun i =>
          ⟨i, (t : ℤ), f.stepTime t - shift, f.data t i⟩ := by
  induction n generalizing s with
  | zero => simp [expectedWrites]
  | succ n ih =>
    rw [List.range'_succ]
    simp only [expectedWrites, List.flatMap_cons]
    have hc1 : (s : ℤ) - 1 + 1 = (s : ℤ) := by ring
    have hc2 : ((s + 1 : ℕ) : ℤ) - 1 = (s : ℤ) + 1 - 1 := by push_cast; ring
    rw [hc1]
    congr 1
    have := ih (s + 1)
    rw [hc2] at this
    simpa using this

/-- Claim C5: on an equidistant (type 3) file, `extract(start=0, end=-1)`
(negative end counting back from the file end, -1 denoting the last step)
selects the whole step range: the output keeps the source start time and the
writes enumerate every step and every item with the unshifted source times
and the unchanged source data. -/
theorem extract_full_range (f : ExtractFile) (h3 : f.ax.axisType = 3)
    (hn : 1 ≤ f.ax.nSteps) (hdt : 0 < f.ax.dt) (hk : 1 ≤ f.nItems)
    (htime : ∀ t, f.stepTime t = f.ax.startOffset + (t : ℚ) * f.ax.dt) :
    extract f (.step 0) (.step (-1)) (List.range f.nItems) =
      .ok ⟨f.ax.startDateTime,
        (List.range f.ax.nSteps).flatMap fun t =>
          (List.range f.nItems).map fun i =>
            ⟨i, (t : ℤ), f.ax.startOffset + (t : ℚ) * f.ax.dt, f.data t i⟩⟩ := by
  have h1q : (1 : ℚ) ≤ (f.ax.nSteps : ℚ) := by exact_mod_cast hn
  have hB : ¬ (f.ax.startOffset + f.ax.dt * ((f.ax.nSteps : ℚ) - 1) <
      f.ax.startOffset) := by nlinarith
  have hpr : parse_start_end f.ax (.step 0) (.step (-1)) =
      .ok (ParseResult.mk (some f.ax.startDateTime) 0 f.ax.startOffset
        (f.ax.nSteps : ℤ)
        (f.ax.startOffset + f.ax.dt * ((f.ax.nSteps : ℚ) - 1)) []) := by
    norm_num [parse_start_end, h3, hB,
      show ¬ ((f.ax.nSteps : ℤ) + -1 + 1 < 0) from by omega]
  have hfirst : (List.range f.nItems).headD 0 = 0 := by
    obtain ⟨m, hm⟩ : ∃ m, f.nItems = m + 1 := ⟨f.nItems - 1, by omega⟩
    rw [hm, List.range_succ_eq_map]
    rfl
  have hb : ∀ t ∈ List.range f.ax.nSteps,
      f.ax.startOffset ≤ f.stepTime t ∧
        f.stepTime t ≤ f.ax.startOffset + f.ax.dt * ((f.ax.nSteps : ℚ) - 1) := by
    intro t ht
    rw [List.mem_range] at ht
    have htq : (t : ℚ) ≤ (f.ax.nSteps : ℚ) - 1 := by
      have h2 : ((t + 1 : ℕ) : ℚ) ≤ (f.ax.nSteps : ℚ) := by exact_mod_cast ht
      push_cast at h2
      linarith
    rw [htime t]
    constructor
    · nlinarith [Nat.cast_nonneg (α := ℚ) t]
    · nlinarith
  simp only [extract, hpr, hfirst, sub_self, Int.sub_zero, Int.toNat_natCast,
    Int.toNat_zero, Nat.add_zero, List.map_id']
  rw [extractSteps_all f f.ax.startOffset
    (f.ax.startOffset + f.ax.dt * ((f.ax.nSteps : ℚ) - 1)) 0 f.nItems hk
    (List.range f.ax.nSteps) (-1) hb]
  have hw : expectedWrites f f.nItems 0 (List.range f.ax.nSteps) (-1) =
      (List.range f.ax.nSteps).flatMap fun t =>
        (List.range f.nItems).map fun i =>
          ⟨i, (t : ℤ), f.stepTime t - 0, f.data t i⟩ := by
    rw [List.range_eq_range']
    have h := expectedWrites_range' f f.nItems 0 f.ax.nSteps 0
    simpa using h
  rw [hw]
  simp only [htime, sub_zero]

/-- A concrete 2-step 1-item equidistant file for the extract witness. -/
def wExtract : ExtractFile :=
  { ax := { axisType := 3, startDateTime := 50, startOffset := 0, dt := 1,
            timeSpan := 0, nSteps := 2 },
    nItems := 1,
    stepTime := fun t => (t : ℚ),
    data := fun t _ => [(t : ℚ) + 10] }

/-- Witness for `extract_full_range` at the concrete 2-step file. -/
theorem extract_full_range_witness :
    extract wExtract (.step 0) (.step (-1)) (List.range wExtract.nItems) =
      .ok ⟨wExtract.ax.startDateTime,
        (List.range wExtract.ax.nSteps).flatMap fun t =>
          (List.range wExtract.nItems).map fun i =>
            ⟨i, (t : ℤ), wExtract.ax.startOffset + (t : ℚ) * wExtract.ax.dt,
              wExtract.data t i⟩⟩ :=
  extract_full_range wExtract (by norm_num [wExtract]) (by norm_num [wExtract])
    (by norm_num [wExtract]) (by norm_num [wExtract])
    (by intro t; norm_num [wExtract])

/-- Flexible-mesh geometry as consumed by the Dfsu read path: the element
count of the full domain and the two spatial resolvers used by
`_parse_geometry_sel` (`GeometryFM._elements_in_area` and
`GeometryFM.find_index`, external to this excerpt, kept abstract). -/
structure FMGeom where
  nElements : ℕ
  elementsInArea : List ℚ → List ℕ
  findIndexXY : Option ℚ → Option ℚ → List ℕ

/-- Model of `_Dfsu._validate_elements_and_geometry_sel` (dfsu/_dfsu.py lines
630-667): with `elements` given, the first of the used keyword selectors
(iterated in the call order area, x, y) raises; with `elements` absent, area
combined with x or y raises. -/
def validate_elements_and_geometry_sel (elements : Option (List ℕ))
    (area : Option (List ℚ)) (x y : Option ℚ) : Except String Unit :=
  if elements.isSome then
    if area.isSome then .error "Cannot select both area and elements!"
    else if x.isSome then .error "Cannot select both x and elements!"
    else if y.isSome then .error "Cannot select both y and elements!"
    else .ok ()
  else if area.isSome ∧ (x.isSome ∨ y.isSome) then
    .error "Cannot select both x,y and area!"
  else .ok ()

/-- Model of `_Dfsu._parse_geometry_sel` (dfsu/_dfsu.py lines 669-708):
resolves area then (x, y) to an element-id list; if a selection was
attempted and resolved to nothing, raises; with no selector returns none. -/
def parse_geometry_sel (g : FMGeom) (area : Option (List ℚ))
    (x y : Option ℚ) : Except String (Option (List ℕ)) :=
  let elements : Option (List ℕ) := none
  let elements := match area with
    | some a => some (g.elementsInArea a)
    | none => elements
  let elements := if x.isSome ∨ y.isSome then some (g.findIndexXY x y)
    else elements
  if x.isSome ∨ y.isSome ∨ area.isSome then
    match elements with
    | none => .error "No elements in selection!"
    | some l => if l.length = 0 then .error "No elements in selection!"
      else .ok (some l)
  else .ok elements

/-- Dataset skeleton returned by the read model: whether the full file
geometry was kept and how many elements the data arrays cover. -/
structure ReadOut where
  usesFullGeometry : Bool
  nElems : ℕ
  deriving Repr, DecidableEq

/-- Model of the spatial-selection part of `_Dfsu._read` (dfsu/_dfsu.py
lines 547-559): the selector validation and resolution run before any
time-step data is read (an error here means no data access happens); with no
resulting element list the full geometry with all `n_elements` is used,
otherwise the sub-geometry over the selected elements. -/
def dfsuRead (g : FMGeom) (elements : Option (List ℕ))
    (area : Option (List ℚ)) (x y : Option ℚ) : Except String ReadOut :=
  match validate_elements_and_geometry_sel elements area x y with
  | .error e => .error e
  | .ok _ =>
    match (if elements.isNone then parse_geometry_sel g area x y
           else .ok elements) with
    | .error e => .error e
    | .ok none => .ok { usesFullGeometry := true, nElems := g.nElements }
    | .ok (some l) => .ok { usesFullGeometry := false, nElems := l.length }

/-- Claim C6: supplying more than one of the spatial selectors {elements,
area, (x,y)} makes the Dfsu read fail with a configuration error before any
data is read; a supplied area or (x,y) selector resolving to zero elements
fails with the empty-selection error; and `elements=None` with no spatial
selector always succeeds with the full geometry over all `n_elements`. -/
theorem dfsu_read_selector_cases (g : FMGeom) (el : List ℕ)
    (area : List ℚ) (x y : Option ℚ) :
    ((∃ e, dfsuRead g (some el) (some area) x y = .error e) ∧
     (∀ xv : ℚ, ∃ e, dfsuRead g (some el) none (some xv) y = .error e) ∧
     (∀ yv : ℚ, ∃ e, dfsuRead g (some el) none none (some yv) = .error e) ∧
     ((x.isSome ∨ y.isSome) →
       dfsuRead g none (some area) x y = .error "Cannot select both x,y and area!")) ∧
    ((g.elementsInArea area = [] →
       dfsuRead g none (some area) none none = .error "No elements in selection!") ∧
     (∀ xv yv : ℚ, g.findIndexXY (some xv) (some yv) = [] →
       dfsuRead g none none (some xv) (some yv) = .error "No elements in selection!")) ∧
    dfsuRead g none none none none =
      .ok { usesFullGeometry := true, nElems := g.nElements } := by
  refine ⟨⟨?_, ?_, ?_, ?_⟩, ⟨?_, ?_⟩, ?_⟩
  · exact ⟨"Cannot select both area and elements!",
      by simp [dfsuRead, validate_elements_and_geometry_sel]⟩
  · intro xv
    exact ⟨"Cannot select both x and elements!",
      by simp [dfsuRead, validate_elements_and_geometry_sel]⟩
  · intro yv
    exact ⟨"Cannot select both y and elements!",
      by simp [dfsuRead, validate_elements_and_geometry_sel]⟩
  · intro hxy
    have : (some area).isSome ∧ (x.isSome ∨ y.isSome) := ⟨by simp, hxy⟩
    simp [dfsuRead, validate_elements_and_geometry_sel, this]
  · intro hempty
    simp [dfsuRead, validate_elements_and_geometry_sel, parse_geometry_sel,
      hempty]
  · intro xv yv hempty
    simp [dfsuRead, validate_elements_and_geometry_sel, parse_geometry_sel,
      hempty]
  · simp [dfsuRead, validate_elements_and_geometry_sel, parse_geometry_sel]

/-- Concrete geometry for the C6 witness: 4 elements; an area resolver that
returns nothing for the empty polygon, and a point resolver that finds no
containing element. -/
def wGeom : FMGeom :=
  { nElements := 4,
    elementsInArea := fun a => if a = [] then [] else [0, 1],
    findIndexXY := fun _ _ => [] }

/-- Witness for `dfsu_read_selector_cases`: elements+area errors, an area
resolving to zero elements errors, and the unfiltered read succeeds over the
full domain. -/
theorem dfsu_read_selector_cases_witness :
    (∃ e, dfsuRead wGeom (some [0]) (some [0, 0, 1, 1]) none none = .error e) ∧
    dfsuRead wGeom none (some []) none none = .error "No elements in selection!" ∧
    dfsuRead wGeom none none none none =
      .ok { usesFullGeometry := true, nElems := wGeom.nElements } := by
  refine ⟨?_, ?_, ?_⟩
  · exact (dfsu_read_selector_cases wGeom [0] [0, 0, 1, 1] none none).1.1
  · exact (dfsu_read_selector_cases wGeom [0] [] none none).2.1.1
      (by simp [wGeom])
  · exact (dfsu_read_selector_cases wGeom [0] [] none none).2.2

/-- Consecutive differences `np.diff`. -/
def diffsQ (l : List ℚ) : List ℚ := List.zipWith (fun a b => b - a) l l.tail

/-- Model of `_check_equidistant` (grid_geometry.py lines 16-19);
`np.allclose(d, d[0])` on the differences is modelled as exact equality. -/
def check_equidistant (x : List ℚ) : Except String Unit :=
  let d := diffsQ x
  if d.length > 0 ∧ ¬ (d.all fun v => decide (v = d.headD 0)) then
    .error "values must be equidistant"
  else .ok ()

/-- Parameters of a constructed Grid1D: the axis array, the spacing and the
optional node coordinates. -/
structure Grid1DParams where
  x : List ℚ
  dx : ℚ
  nc : Option (List (ℚ × ℚ))
  deriving Repr, DecidableEq

/-- Model of `Grid1D.__init__` (grid_geometry.py lines 22-62) restricted to
its two construction paths: explicit `x` array, or `x0/dx/n`
(`np.linspace(x0, x0 + dx*(n-1), n)` is exactly `x0 + i*dx`). -/
def grid1dInit (x : Option (List ℚ)) (x0 : ℚ) (dx : Option ℚ) (n : Option ℕ)
    (node_coordinates : Option (List (ℚ × ℚ))) : Except String Grid1DParams :=
  match x with
  | some xs =>
    match check_equidistant xs with
    | .error e => .error e
    | .ok _ =>
      if xs.length > 1 ∧ xs.headD 0 > xs.getLastD 0 then
        .error "x values must be increasing"
      else
        let dxv := if xs.length > 1 then xs.getD 1 0 - xs.getD 0 0 else 1
        if node_coordinates.elim false (fun nc => nc.length ≠ xs.length) then
          .error "Length of node_coordinates must be n"
        else .ok ⟨xs, dxv, node_coordinates⟩
  | none =>
    match n with
    | none => .error "n must be provided"
    | some nv =>
      match dx with
      | none => .error "dx must be provided"
      | some dxv =>
        let xs := (List.range nv).map fun i : ℕ => x0 + (i : ℚ) * dxv
        if node_coordinates.elim false (fun nc => nc.length ≠ xs.length) then
          .error "Length of node_coordinates must be n"
        else .ok ⟨xs, dxv, node_coordinates⟩

/-- The `dx` argument of Grid2D: a scalar or a (dx, dy) tuple. -/
inductive DxInput
  | scalar (d : ℚ)
  | pair (dx dy : ℚ)
  deriving Repr, DecidableEq

/-- Parameters of a constructed Grid2D (cell-center origin, spacing and
count per axis; counts as ℤ because `int(np.ceil(...))` can be negative for
adversarial spacings). -/
structure Grid2DParams where
  x0 : ℚ
  dx : ℚ
  nx : ℤ
  y0 : ℚ
  dy : ℚ
  ny : ℤ
  deriving Repr, DecidableEq

/-- `int(np.ceil(q))` for finite `q`. -/
def ceilInt (q : ℚ) : ℤ := ⌈q⌉

/-- Model of `Grid2D._create_in_bbox` (grid_geometry.py lines 346-419).
Box accesses are `bbox[0..3]` (fewer than 4 entries raises IndexError);
rational division by zero is 0 in Lean where Python would produce inf/raise,
which no claim exercises. -/
def create_in_bbox (bbox : List ℚ) (dxdy : Option DxInput)
    (shape : Option (Option ℤ × Option ℤ)) : Except String Grid2DParams :=
  match bbox with
  | left :: bottom :: right :: top :: _ =>
    if left > right then
      .error "Invalid x axis, left must be smaller than right"
    else if bottom > top then
      .error "Invalid y axis, bottom must be smaller than top"
    else
      let xr := right - left
      let yr := top - bottom
      let comp : Except String (ℤ × ℤ × ℚ × ℚ) :=
        if dxdy = none ∧ shape = none then
          if xr ≤ yr then
            let nx : ℤ := 10
            let ny := ceilInt ((nx : ℚ) * yr / xr)
            .ok (nx, ny, xr / (nx : ℚ), yr / (ny : ℚ))
          else
            let ny : ℤ := 10
            let nx := ceilInt ((ny : ℚ) * xr / yr)
            .ok (nx, ny, xr / (nx : ℚ), yr / (ny : ℚ))
        else
          match shape with
          | some sh =>
            match sh with
            | (none, none) => .error "nx and ny cannot both be None"
            | (some nx, none) =>
              let ny := ceilInt ((nx : ℚ) * yr / xr)
              .ok (nx, ny, xr / (nx : ℚ), yr / (ny : ℚ))
            | (none, some ny) =>
              let nx := ceilInt ((ny : ℚ) * xr / yr)
              .ok (nx, ny, xr / (nx : ℚ), yr / (ny : ℚ))
            | (some nx, some ny) =>
              .ok (nx, ny, xr / (nx : ℚ), yr / (ny : ℚ))
          | none =>
            match dxdy with
            | some (.scalar d) =>
              .ok (ceilInt (xr / d), ceilInt (yr / d), d, d)
            | some (.pair dxv dyv) =>
              .ok (ceilInt (xr / dxv), ceilInt (yr / dyv), dxv, dyv)
            | none => .error "dxdy and shape cannot both be provided! Chose one."
      match comp with
      | .error e => .error e
      | .ok (nx, ny, dxv, dyv) =>
        .ok ⟨left + dxv / 2, dxv, nx, bottom + dyv / 2, dyv, ny⟩
  | _ => .error "IndexError: bbox must hold 4 values"


/-- Model of `Grid2D._create_from_x_and_y` (grid_geometry.py lines 421-438):
axes must be equidistant and non-decreasing end to end; a single-value axis
gets spacing 1.0; an empty axis raises IndexError at `x[0]`. -/
def create_from_x_and_y (x y : List ℚ) : Except String Grid2DParams :=
  match check_equidistant x with
  | .error e => .error e
  | .ok _ =>
    match check_equidistant y with
    | .error e => .error e
    | .ok _ =>
      if x.length > 1 ∧ x.headD 0 > x.getLastD 0 then
        .error "x values must be increasing"
      else if y.length > 1 ∧ y.headD 0 > y.getLastD 0 then
        .error "y values must be increasing"
      else
        match x, y with
        | x0v :: _, y0v :: _ =>
          .ok ⟨x0v, (if x.length > 1 then x.getD 1 0 - x.getD 0 0 else 1),
            (x.length : ℤ),
            y0v, (if y.length > 1 then y.getD 1 0 - y.getD 0 0 else 1),
            (y.length : ℤ)⟩
        | _, _ => .error "IndexError: empty coordinate array"

/-- Model of `Grid2D._create_from_nx_ny_dx_dy` (grid_geometry.py lines
440-455): origin defaults to 0, `dy` defaults to `dx`.  An array-valued `dx`
reaching this path feeds numpy broadcasting in the source; no claim
exercises it, so it is surfaced as an error here. -/
def create_from_nx_ny_dx_dy (x0 : Option ℚ) (dx : Option DxInput)
    (nx : Option ℤ) (y0 : Option ℚ) (dy : Option ℚ) (ny : Option ℤ) :
    Except String Grid2DParams :=
  match nx with
  | none => .error "nx must be provided"
  | some nxv =>
    match dx with
    | none => .error "dx must be provided"
    | some (.pair _ _) => .error "unsupported: array-valued dx"
    | some (.scalar dxv) =>
      match ny with
      | none => .error "ny must be provided"
      | some nyv =>
        .ok ⟨x0.getD 0, dxv, nxv, y0.getD 0, dy.getD dxv, nyv⟩

/-- Model of `Grid2D.__init__` (grid_geometry.py lines 259-344): the dy
handling may unwrap a tuple `dx` and validates positivity; a length-4 `x`
with `y` missing or a spacing/shape argument present is reinterpreted as the
bounding box (`bbox, x = x, bbox`); then exactly one of the three
construction paths runs. -/
def grid2dInit (x y : Option (List ℚ)) (bbox : Option (List ℚ))
    (dx : Option DxInput) (dy : Option ℚ)
    (shape : Option (Option ℤ × Option ℤ))
    (x0 y0 : Option ℚ) (nx ny : Option ℤ) : Except String Grid2DParams :=
  let step1 : Except String (Option DxInput × Option DxInput) :=
    match dy with
    | none => .ok (dx, dx)
    | some dyv =>
      match dx with
      | none => .error "TypeError: dx is None"
      | some (.scalar d) =>
        if d ≤ 0 then .error "dx must be a positive number"
        else if dyv ≤ 0 then .error "dy must be a positive number"
        else .ok (some (.scalar d), some (.pair d dyv))
      | some (.pair d _) =>
        if d ≤ 0 then .error "dx must be a positive number"
        else if dyv ≤ 0 then .error "dy must be a positive number"
        else .ok (some (.scalar d), some (.pair d dyv))
  match step1 with
  | .error e => .error e
  | .ok (dx, dxdy) =>
    let swapped : Option (List ℚ) × Option (List ℚ) :=
      match x with
      | some xs =>
        if xs.length = 4 ∧ (y.isNone ∨ dxdy.isSome ∨ shape.isSome) then
          (bbox, some xs)
        else (some xs, bbox)
      | none => (x, bbox)
    match swapped.2 with
    | some bb => create_in_bbox bb dxdy shape
    | none =>
      match swapped.1, y with
      | some xs, some ys => create_from_x_and_y xs ys
      | _, _ =>
        match nx, ny with
        | some _, some _ => create_from_nx_ny_dx_dy x0 dx nx y0 dy ny
        | _, _ =>
          .error "Please provide either bbox or both x and y, or x0, dx, nx, y0, dy, ny"

/-- Claim C7: constructing Grid2D from `bbox=[l,b,r,t]` with a scalar `dx`
(and no dy/shape) yields dy = dx, nx = ceil((r-l)/dx), ny = ceil((t-b)/dx),
cell centers starting at x0 = l + dx/2 and y0 = b + dx/2, and the box is
covered (r ≤ l + nx*dx, t ≤ b + ny*dx); a box with l > r or b > t fails. -/
theorem grid2d_bbox_spacing (l b r t dx : ℚ) (hdx : 0 < dx) :
    (l ≤ r → b ≤ t →
      grid2dInit none none (some [l, b, r, t]) (some (.scalar dx)) none none
          none none none none =
        .ok ⟨l + dx / 2, dx, ⌈(r - l) / dx⌉, b + dx / 2, dx, ⌈(t - b) / dx⌉⟩ ∧
      r ≤ l + (⌈(r - l) / dx⌉ : ℚ) * dx ∧
      t ≤ b + (⌈(t - b) / dx⌉ : ℚ) * dx) ∧
    (r < l → grid2dInit none none (some [l, b, r, t]) (some (.scalar dx))
      none none none none none none =
      .error "Invalid x axis, left must be smaller than right") ∧
    (l ≤ r → t < b → grid2dInit none none (some [l, b, r, t])
      (some (.scalar dx)) none none none none none none =
      .error "Invalid y axis, bottom must be smaller than top") := by
  refine ⟨?_, ?_, ?_⟩
  · intro hlr hbt
    refine ⟨?_, ?_, ?_⟩
    · simp [grid2dInit, create_in_bbox, ceilInt, not_lt.mpr hlr, not_lt.mpr hbt]
    · have h1 : ((r - l) / dx) * dx = r - l := div_mul_cancel₀ _ (ne_of_gt hdx)
      have h2 : ((r - l) / dx : ℚ) ≤ ((⌈(r - l) / dx⌉ : ℤ) : ℚ) := Int.le_ceil _
      nlinarith
    · have h1 : ((t - b) / dx) * dx = t - b := div_mul_cancel₀ _ (ne_of_gt hdx)
      have h2 : ((t - b) / dx : ℚ) ≤ ((⌈(t - b) / dx⌉ : ℤ) : ℚ) := Int.le_ceil _
      nlinarith
  · intro hrl
    simp [grid2dInit, create_in_bbox, hrl]
  · intro hlr htb
    simp [grid2dInit, create_in_bbox, not_lt.mpr hlr, htb]

/-- Witness for `grid2d_bbox_spacing`: the spec scenario
Grid2D(bbox=[0,0,10,20], dx=2) gives nx=5, ny=10, x0=1.0, y0=1.0 (dy=dx=2),
and a flipped box errors. -/
theorem grid2d_bbox_spacing_witness :
    grid2dInit none none (some [0, 0, 10, 20]) (some (.scalar 2)) none none
        none none none none = .ok ⟨1, 2, 5, 1, 2, 10⟩ ∧
    grid2dInit none none (some [3, 0, 1, 20]) (some (.scalar 2)) none none
        none none none none =
      .error "Invalid x axis, left must be smaller than right" := by
  constructor
  · have h := ((grid2d_bbox_spacing 0 0 10 20 2 (by norm_num)).1
      (by norm_num) (by norm_num)).1
    rw [h]
    norm_num [show ((10 : ℚ) - 0) / 2 = 5 from by norm_num,
      show ((20 : ℚ) - 0) / 2 = 10 from by norm_num]
  · exact (grid2d_bbox_spacing 3 0 1 20 2 (by norm_num)).2.1 (by norm_num)

/-- Claim C9: when the first positional argument `x` has length exactly 4
and either `y` is omitted or a spacing/shape argument is given, Grid2D
reinterprets `x` as the bounding box: the call equals the corresponding
`bbox=` call.  In particular Grid2D([0,0,10,20], dx=2) builds the same grid
as Grid2D(bbox=[0,0,10,20], dx=2). -/
theorem grid2d_bbox_swap (xs : List ℚ) (h4 : xs.length = 4)
    (y : Option (List ℚ)) (dx : Option DxInput) (dy : Option ℚ)
    (shape : Option (Option ℤ × Option ℤ)) (x0 y0 : Option ℚ)
    (nx ny : Option ℤ)
    (hcond : y = none ∨ dx.isSome ∨ shape.isSome) :
    grid2dInit (some xs) y none dx dy shape x0 y0 nx ny =
      grid2dInit none y (some xs) dx dy shape x0 y0 nx ny := by
  rcases dy with _ | dyv
  · rcases dx with _ | dxv
    · have hc : y.isNone = true ∨ shape.isSome = true := by
        rcases hcond with hy | hdx | hsh
        · left; simp [hy]
        · simp at hdx
        · right; exact hsh
      rcases hc with hc | hc <;> simp [grid2dInit, h4, hc]
    · simp [grid2dInit, h4]
  · rcases dx with _ | dxv
    · simp [grid2dInit]
    · rcases dxv with d | ⟨d1, d2⟩ <;>
        simp only [grid2dInit] <;> split_ifs <;> simp [h4]

/-- Witness for `grid2d_bbox_swap`: Grid2D([0,0,10,20], dx=2) equals
Grid2D(bbox=[0,0,10,20], dx=2). -/
theorem grid2d_bbox_swap_witness :
    grid2dInit (some [0, 0, 10, 20]) none none (some (.scalar 2)) none none
        none none none none =
      grid2dInit none none (some [0, 0, 10, 20]) (some (.scalar 2)) none none
        none none none none :=
  grid2d_bbox_swap [0, 0, 10, 20] (by norm_num) none (some (.scalar 2)) none
    none none none none none (by simp)

/-- Grid axis of cell centers derived from (origin, spacing, count), the
`_create_axis` / `np.linspace` result (grid_geometry.py lines 457-460). -/
def gridAxisN (x0 dx : ℚ) (n : ℕ) : List ℚ :=
  (List.range n).map fun i : ℕ => x0 + (i : ℚ) * dx

/-- The `x` property of a Grid2D (lazily `_create_axis(x0, dx, nx)`). -/
def gridX (p : Grid2DParams) : List ℚ := gridAxisN p.x0 p.dx p.nx.toNat

/-- The `y` property of a Grid2D. -/
def gridY (p : Grid2DParams) : List ℚ := gridAxisN p.y0 p.dy p.ny.toNat

/-- Consecutive differences of an integer index array (`np.diff(idx)`). -/
def intDiffs (l : List ℤ) : List ℤ := List.zipWith (fun a b => b - a) l l.tail

/-- Numpy scalar indexing with negative wrap-around. -/
def pyIndex (xs : List ℚ) (i : ℤ) : Except String ℚ :=
  if 0 ≤ i ∧ i < (xs.length : ℤ) then .ok (xs.getD i.toNat 0)
  else if -(xs.length : ℤ) ≤ i ∧ i < 0 then
    .ok (xs.getD ((xs.length : ℤ) + i).toNat 0)
  else .error "IndexError: index out of bounds"

/-- Numpy fancy indexing `xs[idx]` with an integer index array. -/
def pyIndexList (xs : List ℚ) : List ℤ → Except String (List ℚ)
  | [] => .ok []
  | i :: is =>
    match pyIndex xs i, pyIndexList xs is with
    | .ok v, .ok vs => .ok (v :: vs)
    | .error e, _ => .error e
    | _, .error e => .error e

/-- The idx argument of `isel`: `np.isscalar(idx)` distinguishes a scalar
from an index array. -/
inductive IselIdx
  | scalar (i : ℤ)
  | arr (l : List ℤ)

/-- Geometry variants an `isel` call can produce. -/
inductive GeomResult
  | undefined
  | grid2dRes (p : Grid2DParams)
  | grid1dRes (p : Grid1DParams)
  deriving Repr, DecidableEq

/-- The condition `np.any(d < 1) or not np.allclose(d, d[0])` on an index
difference array, with Python evaluation order: when no step is below 1 and
the array is empty, `d[0]` raises IndexError. -/
def badAxisDiffs (d : List ℤ) : Except String Bool :=
  if d.any fun v => decide (v < 1) then .ok true
  else
    match d with
    | [] => .error "IndexError: index 0 is out of bounds"
    | d0 :: _ => .ok (¬ d.all fun v => decide (v = d0) : Bool)

/-- Model of `Grid2D.isel` (grid_geometry.py lines 537-555).  A non-scalar
index array whose differences are non-uniform or below 1 returns
`GeometryUndefined()` with no warning call on this path; a uniform
contiguous selection builds a reduced Grid2D through the constructor; a
scalar index degrades to a Grid1D whose node coordinates fix the other
axis.  The second component collects the warnings emitted by the call. -/
def grid2dIsel (p : Grid2DParams) (idx : IselIdx) (axis : ℕ) :
    Except String (GeomResult × List String) :=
  match idx with
  | .arr l =>
    match badAxisDiffs (intDiffs l) with
    | .error e => .error e
    | .ok true => .ok (.undefined, [])
    | .ok false =>
      match (if axis = 0 then .ok (gridX p) else pyIndexList (gridX p) l),
          (if axis = 1 then .ok (gridY p) else pyIndexList (gridY p) l) with
      | .ok xarr, .ok yarr =>
        match grid2dInit (some xarr) (some yarr) none none none none
            none none none none with
        | .error e => .error e
        | .ok p2 => .ok (.grid2dRes p2, [])
      | .error e, _ => .error e
      | _, .error e => .error e
  | .scalar i =>
    if axis = 0 then
      match pyIndex (gridY p) i with
      | .error e => .error e
      | .ok yi =>
        match grid1dInit (some (gridX p)) 0 none none
            (some ((gridX p).map fun xj => (xj, yi))) with
        | .error e => .error e
        | .ok g1 => .ok (.grid1dRes g1, [])
    else
      match pyIndex (gridX p) i with
      | .error e => .error e
      | .ok xi =>
        match grid1dInit (some (gridY p)) 0 none none
            (some ((gridY p).map fun yj => (xi, yj))) with
        | .error e => .error e
        | .ok g1 => .ok (.grid1dRes g1, [])

/-- Model of `Grid2D._index_to_geometry` (grid_geometry.py lines 557-566):
here a degenerate selection does warn before returning the sentinel; note
the source indexes `self.x` with BOTH `ii` and `jj` (line 566). -/
def index_to_geometry (p : Grid2DParams) (ii jj : List ℤ) :
    Except String (GeomResult × List String) :=
  match badAxisDiffs (intDiffs ii) with
  | .error e => .error e
  | .ok true =>
    .ok (.undefined, ["Axis not equidistant! Will return GeometryUndefined()"])
  | .ok false =>
    match badAxisDiffs (intDiffs jj) with
    | .error e => .error e
    | .ok true =>
      .ok (.undefined, ["Axis not equidistant! Will return GeometryUndefined()"])
    | .ok false =>
      match pyIndexList (gridX p) ii, pyIndexList (gridX p) jj with
      | .ok xarr, .ok yarr =>
        match grid2dInit (some xarr) (some yarr) none none none none
            none none none none with
        | .error e => .error e
        | .ok p2 => .ok (.grid2dRes p2, [])
      | .error e, _ => .error e
      | _, .error e => .error e

theorem gridAxisN_cons (x0 dx : ℚ) (k : ℕ) :
    gridAxisN x0 dx (k + 1) = x0 :: gridAxisN (x0 + dx) dx k := by
  unfold gridAxisN
  rw [List.range_succ_eq_map, List.map_cons, List.map_map]
  refine congrArg₂ _ (by norm_num) (List.map_congr_left ?_)
  intro i hi
  simp only [Function.comp]
  push_cast
  ring

theorem diffsQ_gridAxisN (x0 dx : ℚ) (n : ℕ) :
    diffsQ (gridAxisN x0 dx n) = List.replicate (n - 1) dx := by
  induction n generalizing x0 with
  | zero => simp [gridAxisN, diffsQ]
  | succ k ih =>
    cases k with
    | zero => simp [gridAxisN, diffsQ, List.range_succ]
    | succ k2 =>
      rw [gridAxisN_cons, gridAxisN_cons]
      have hd : ∀ (a b : ℚ) (l : List ℚ),
          diffsQ (a :: b :: l) = (b - a) :: diffsQ (b :: l) := by
        intro a b l
        simp [diffsQ]
      rw [hd, ← gridAxisN_cons, ih (x0 + dx)]
      have hrep : (k2 + 1 + 1 - 1) = (k2 + 1 - 1) + 1 := by omega
      rw [hrep, List.replicate_succ]
      simp

theorem check_equidistant_gridAxisN (x0 dx : ℚ) (n : ℕ) :
    check_equidistant (gridAxisN x0 dx n) = .ok () := by
  unfold check_equidistant
  rw [diffsQ_gridAxisN]
  cases hn : n - 1 with
  | zero => simp
  | succ k =>
    refine if_neg ?_
    rintro ⟨h1, h2⟩
    apply h2
    rw [List.all_eq_true]
    intro v hv
    rw [List.eq_of_mem_replicate hv]
    simp [List.replicate_succ]

theorem gridAxisN_getLastD (x0 dx : ℚ) (m : ℕ) (d : ℚ) :
    (gridAxisN x0 dx (m + 1)).getLastD d = x0 + (m : ℚ) * dx := by
  induction m generalizing x0 d with
  | zero => simp [gridAxisN, List.range_succ]
  | succ k ih =>
    rw [gridAxisN_cons, List.getLastD_cons, ih (x0 + dx)]
    push_cast
    ring

theorem gridAxisN_not_decreasing (x0 dx : ℚ) (n : ℕ) (hdx : 0 < dx) :
    ¬ ((gridAxisN x0 dx n).length > 1 ∧
      (gridAxisN x0 dx n).headD 0 > (gridAxisN x0 dx n).getLastD 0) := by
  rintro ⟨h1, h2⟩
  have hlen : (gridAxisN x0 dx n).length = n := by simp [gridAxisN]
  obtain ⟨m, rfl⟩ : ∃ m, n = m + 1 := ⟨n - 1, by rw [hlen] at h1; omega⟩
  have hh : (gridAxisN x0 dx (m + 1)).headD 0 = x0 := by
    rw [gridAxisN_cons]
    rfl
  rw [hh, gridAxisN_getLastD] at h2
  have hm : 1 ≤ m := by rw [hlen] at h1; omega
  have hmq : (1 : ℚ) ≤ (m : ℚ) := by exact_mod_cast hm
  nlinarith

/-- Concrete 4-by-4 unit grid for the C8 counterexample. -/
def gridC8 : Grid2DParams := ⟨0, 1, 4, 0, 1, 4⟩

/-- Claim C8 counterexample: `Grid2D.isel` with the discontinuous index
array [0, 2, 3] returns the undefined-geometry sentinel WITHOUT emitting any
warning (the claim asserts the sentinel is accompanied by a warning); the
warning exists only on the `_index_to_geometry` path. -/
theorem grid2d_isel_no_warning :
    grid2dIsel gridC8 (.arr [0, 2, 3]) 0 = .ok (.undefined, []) ∧
    ([] : List String) ≠ ["Axis not equidistant! Will return GeometryUndefined()"] ∧
    index_to_geometry gridC8 [0, 2, 3] [0, 1] =
      .ok (.undefined, ["Axis not equidistant! Will return GeometryUndefined()"]) := by
  refine ⟨rfl, by simp, rfl⟩

/-- Claim C8 (amended): a non-scalar index array whose consecutive
differences are not all equal or contain a step below 1 makes `Grid2D.isel`
return the undefined-geometry sentinel, raising no error but also emitting
NO warning (the warning accompanies only `_index_to_geometry`, stated here
as the third conjunct); a scalar selection along axis 0 degrades to a
Grid1D over the x axis whose node coordinates are fixed at the selected y
value. -/
theorem grid2d_isel_cases (p : Grid2DParams) (hdx : 0 < p.dx) :
    (∀ (l : List ℤ) (axis : ℕ), intDiffs l ≠ [] →
      ((∃ v ∈ intDiffs l, v < 1) ∨
        ¬ (∀ v ∈ intDiffs l, v = (intDiffs l).headD 0)) →
      grid2dIsel p (.arr l) axis = .ok (.undefined, [])) ∧
    (∀ i : ℤ, 0 ≤ i → i < p.ny →
      ∃ g, grid2dIsel p (.scalar i) 0 = .ok (.grid1dRes g, []) ∧
        g.x = gridX p ∧
        g.nc = some ((gridX p).map fun xj => (xj, (gridY p).getD i.toNat 0))) ∧
    (∀ ii jj : List ℤ, (∃ v ∈ intDiffs ii, v < 1) →
      index_to_geometry p ii jj =
        .ok (.undefined, ["Axis not equidistant! Will return GeometryUndefined()"])) := by
  refine ⟨?_, ?_, ?_⟩
  · intro l axis hne hbad
    have hb : badAxisDiffs (intDiffs l) = .ok true := by
      unfold badAxisDiffs
      rcases hbad with ⟨v, hv, hlt⟩ | hall
      · rw [if_pos (List.any_eq_true.mpr ⟨v, hv, by simpa using hlt⟩)]
      · by_cases hany : (intDiffs l).any fun v => decide (v < 1)
        · rw [if_pos hany]
        · rw [if_neg hany]
          cases hd : intDiffs l with
          | nil => exact absurd hd hne
          | cons d0 rest =>
            rw [hd] at hall
            have : ¬ ((d0 :: rest).all fun v => decide (v = d0)) := by
              intro hcontra
              apply hall
              intro v hv
              have := List.all_eq_true.mp hcontra v hv
              simpa using this
            simp [this]
    simp [grid2dIsel, hb]
  · intro i h0 hiny
    have hylen : (gridY p).length = p.ny.toNat := by simp [gridY, gridAxisN]
    have hidx : pyIndex (gridY p) i = .ok ((gridY p).getD i.toNat 0) := by
      unfold pyIndex
      rw [if_pos ⟨h0, by rw [hylen]; omega⟩]
    have hce : check_equidistant (gridX p) = .ok () :=
      check_equidistant_gridAxisN p.x0 p.dx p.nx.toNat
    have hinc : ¬ ((gridX p).length > 1 ∧
        (gridX p).headD 0 > (gridX p).getLastD 0) :=
      gridAxisN_not_decreasing p.x0 p.dx p.nx.toNat hdx
    have hg1 : grid1dInit (some (gridX p)) 0 none none
        (some ((gridX p).map fun xj => (xj, (gridY p).getD i.toNat 0))) =
        .ok ⟨gridX p,
          (if (gridX p).length > 1 then
            (gridX p).getD 1 0 - (gridX p).getD 0 0 else 1),
          some ((gridX p).map fun xj => (xj, (gridY p).getD i.toNat 0))⟩ := by
      simp only [grid1dInit, hce]
      rw [if_neg hinc, if_neg (by simp)]
    refine ⟨⟨gridX p,
      (if (gridX p).length > 1 then (gridX p).getD 1 0 - (gridX p).getD 0 0
        else 1),
      some ((gridX p).map fun xj => (xj, (gridY p).getD i.toNat 0))⟩,
      ?_, rfl, rfl⟩
    show (match pyIndex (gridY p) i with
      | Except.error e => Except.error e
      | Except.ok yi =>
        match grid1dInit (some (gridX p)) 0 none none
            (some ((gridX p).map fun xj => (xj, yi))) with
        | Except.error e => Except.error e
        | Except.ok g1 => Except.ok (GeomResult.grid1dRes g1, [])) = _
    rw [hidx]
    show (match grid1dInit (some (gridX p)) 0 none none
        (some ((gridX p).map fun xj => (xj, (gridY p).getD i.toNat 0))) with
      | Except.error e => Except.error e
      | Except.ok g1 => Except.ok (GeomResult.grid1dRes g1, [])) = _
    rw [hg1]
  · intro ii jj hbadii
    obtain ⟨v, hv, hlt⟩ := hbadii
    have hb : badAxisDiffs (intDiffs ii) = .ok true := by
      unfold badAxisDiffs
      rw [if_pos (List.any_eq_true.mpr ⟨v, hv, by simpa using hlt⟩)]
    simp [index_to_geometry, hb]

/-- Witness for `grid2d_isel_cases` at the concrete 4-by-4 grid: a
discontinuous selection gives the sentinel silently, a scalar selection
gives the Grid1D with node coordinates pinned at y = 2. -/
theorem grid2d_isel_cases_witness :
    grid2dIsel gridC8 (.arr [0, 1, 3]) 0 = .ok (.undefined, []) ∧
    (∃ g, grid2dIsel gridC8 (.scalar 2) 0 = .ok (.grid1dRes g, []) ∧
      g.x = gridX gridC8 ∧
      g.nc = some ((gridX gridC8).map fun xj =>
        (xj, (gridY gridC8).getD (2 : ℤ).toNat 0))) := by
  constructor
  · exact (grid2d_isel_cases gridC8 (by norm_num [gridC8])).1 [0, 1, 3] 0
      (by decide) (by right; decide)
  · exact (grid2d_isel_cases gridC8 (by norm_num [gridC8])).2.1 2
      (by norm_num) (by norm_num [gridC8])

/-- Model of `Grid3D._parse_axis` (grid_geometry.py lines 722-736): an
explicit axis array is checked equidistant and non-decreasing; otherwise the
axis is `np.linspace(x0, x0 + dx*(n-1), n)`. -/
def grid3d_parse_axis (x : Option (List ℚ)) (x0 : ℚ) (dx : Option ℚ)
    (nx : Option ℕ) : Except String (List ℚ) :=
  match x with
  | some xs =>
    match check_equidistant xs with
    | .error e => .error e
    | .ok _ =>
      if xs.length > 1 ∧ xs.headD 0 > xs.getLastD 0 then
        .error "values must be increasing"
      else .ok xs
  | none =>
    match nx with
    | none => .error "n must be provided"
    | some n =>
      match dx with
      | none => .error "d must be provided"
      | some d => .ok ((List.range n).map fun i : ℕ => x0 + (i : ℚ) * d)

/-- Model of `Grid3D.__init__` (grid_geometry.py lines 693-720): the three
axes are parsed independently. -/
def grid3dInit (x : Option (List ℚ)) (x0 : ℚ) (dx : Option ℚ) (nx : Option ℕ)
    (y : Option (List ℚ)) (y0 : ℚ) (dy : Option ℚ) (ny : Option ℕ)
    (z : Option (List ℚ)) (z0 : ℚ) (dz : Option ℚ) (nz : Option ℕ) :
    Except String (List ℚ × List ℚ × List ℚ) :=
  match grid3d_parse_axis x x0 dx nx with
  | .error e => .error e
  | .ok xa =>
    match grid3d_parse_axis y y0 dy ny with
    | .error e => .error e
    | .ok ya =>
      match grid3d_parse_axis z z0 dz nz with
      | .error e => .error e
      | .ok za => .ok (xa, ya, za)

/-- The `Grid3D.dx` property (grid_geometry.py lines 743-747):
`x[1] - x[0] if len(x) > 1 else 1.0`; same shape for dy and dz. -/
def grid3d_dx (axis : List ℚ) : ℚ :=
  if axis.length > 1 then axis.getD 1 0 - axis.getD 0 0 else 1

/-- Claim C10: a grid axis given as an explicit single-value coordinate
array constructs successfully and reports spacing 1.0: Grid1D([v]).dx = 1,
Grid2D from a single-valued x (or y) array gets dx (or dy) = 1, and Grid3D
with single-valued axes reports spacing 1 for them. -/
theorem single_value_axis_spacing :
    (∀ v : ℚ, grid1dInit (some [v]) 0 none none none = .ok ⟨[v], 1, none⟩) ∧
    (∀ (v : ℚ) (ys : List ℚ), ys ≠ [] →
      check_equidistant ys = .ok () →
      ¬ (ys.length > 1 ∧ ys.headD 0 > ys.getLastD 0) →
      ∃ g, create_from_x_and_y [v] ys = .ok g ∧ g.dx = 1) ∧
    (∀ (w : ℚ) (xs : List ℚ), xs ≠ [] →
      check_equidistant xs = .ok () →
      ¬ (xs.length > 1 ∧ xs.headD 0 > xs.getLastD 0) →
      ∃ g, create_from_x_and_y xs [w] = .ok g ∧ g.dy = 1) ∧
    (∀ u vv w : ℚ,
      grid3dInit (some [u]) 0 none none (some [vv]) 0 none none
        (some [w]) 0 none none = .ok ([u], [vv], [w]) ∧
      grid3d_dx [u] = 1) := by
  have hsing : ∀ v : ℚ, check_equidistant [v] = .ok () := by
    intro v
    simp [check_equidistant, diffsQ]
  refine ⟨?_, ?_, ?_, ?_⟩
  · intro v
    simp [grid1dInit, hsing v]
  · intro v ys hne hch hinc
    cases ys with
    | nil => exact absurd rfl hne
    | cons y0 ytl =>
      refine ⟨⟨v, 1, 1, y0,
        (if (y0 :: ytl).length > 1 then
          (y0 :: ytl).getD 1 0 - (y0 :: ytl).getD 0 0 else 1),
        ((y0 :: ytl).length : ℤ)⟩, ?_, rfl⟩
      simp only [create_from_x_and_y, hsing v, hch]
      rw [if_neg (by simp), if_neg hinc]
      norm_num
  · intro w xs hne hch hinc
    cases xs with
    | nil => exact absurd rfl hne
    | cons x0 xtl =>
      refine ⟨⟨x0,
        (if (x0 :: xtl).length > 1 then
          (x0 :: xtl).getD 1 0 - (x0 :: xtl).getD 0 0 else 1),
        ((x0 :: xtl).length : ℤ), w, 1, 1⟩, ?_, rfl⟩
      simp only [create_from_x_and_y, hsing w, hch]
      rw [if_neg hinc, if_neg (by simp)]
      norm_num
  · intro u vv w
    constructor
    · simp [grid3dInit, grid3d_parse_axis, hsing]
    · simp [grid3d_dx]

/-- Witness for `single_value_axis_spacing` at concrete axes. -/
theorem single_value_axis_spacing_witness :
    grid1dInit (some [(7 : ℚ)]) 0 none none none = .ok ⟨[7], 1, none⟩ ∧
    (∃ g, create_from_x_and_y [(7 : ℚ)] [0, 1] = .ok g ∧ g.dx = 1) ∧
    (grid3dInit (some [(1 : ℚ)]) 0 none none (some [2]) 0 none none
        (some [3]) 0 none none = .ok ([1], [2], [3]) ∧
      grid3d_dx [(1 : ℚ)] = 1) := by
  refine ⟨single_value_axis_spacing.1 7, ?_,
    single_value_axis_spacing.2.2.2 1 2 3⟩
  exact single_value_axis_spacing.2.1 7 [0, 1] (by simp)
    (by norm_num [check_equidistant, diffsQ]) (by norm_num)

end Mikeio
